import Mathlib

/-!
Verification of the runtime observability subsystem of the
go-clean-architecture repository: the memory Monitor
(`pkg/monitoring/memory.go`), the per-request instrumentation
(`pkg/monitoring/middleware.go`), the snapshot persistence loop
(`cmd/api/main.go`, `startMemoryLogging`) and the Mongo-backed log store
(`internal/repository/memory_log.go`).

Modelling conventions:
* Go `uint64`/`uint32` counters are `Nat` (overflow is modelled explicitly
  with `% 2 ^ 64` where a claim depends on it); Go `int`/`int64` are `Int`.
* Go `float64` thresholds and fractions are modelled as exact rationals `ℚ`;
  all claims under study compare values well inside the range where `float64`
  arithmetic is exact on the inputs they mention.
* The runtime (`runtime.ReadMemStats` + `runtime.NumGoroutine`) is an oracle:
  each call to `GetMemoryStats` receives the `RuntimeSample` the runtime
  would report at that instant.
* The alert callback `alertHandler func(MemoryStats)` is modelled by its
  observable behaviour: a `Bool` recording whether a handler is registered
  (nil vs non-nil), and the list of invocations (the stats values passed to
  the handler) produced by a call.
-/

namespace GoCleanArch

/-- One point-in-time reading supplied by the host runtime: the fields of
`runtime.MemStats` that `GetMemoryStats` reads, plus `runtime.NumGoroutine()`. -/
structure RuntimeSample where
  alloc : Nat
  totalAlloc : Nat
  sys : Nat
  numGC : Nat
  gcCPUFraction : ℚ
  numGoroutine : Int
  deriving Repr, DecidableEq

/-- `monitoring.MemoryStats` — the snapshot value returned to callers. -/
structure MemoryStats where
  alloc : Nat
  totalAlloc : Nat
  sys : Nat
  numGC : Nat
  gcCPUFraction : ℚ
  numGoroutine : Int
  deriving Repr, DecidableEq

/-- `monitoring.MemoryMonitor` — the mutable monitor state: the running
maximum `maxAlloc`, the configured `alertThreshold`, and whether an
`alertHandler` callback is registered (`true` ↔ the Go field is non-nil). -/
structure MemoryMonitor where
  maxAlloc : Nat
  alertThreshold : ℚ
  alertHandler : Bool
  deriving Repr, DecidableEq

/-- `monitoring.NewMemoryMonitor`: fresh monitor, `maxAlloc = 0`, no handler. -/
def NewMemoryMonitor (alertThreshold : ℚ) : MemoryMonitor :=
  { maxAlloc := 0, alertThreshold := alertThreshold, alertHandler := false }

/-- `monitoring.MemoryMonitor.SetAlertHandler`: registers a callback
(last-writer-wins replacement of the `alertHandler` field). -/
def SetAlertHandler (m : MemoryMonitor) (registered : Bool) : MemoryMonitor :=
  { m with alertHandler := registered }

/-- The `MemoryStats` value `GetMemoryStats` builds from the runtime sample. -/
def mkStats (ms : RuntimeSample) : MemoryStats :=
  { alloc := ms.alloc, totalAlloc := ms.totalAlloc, sys := ms.sys,
    numGC := ms.numGC, gcCPUFraction := ms.gcCPUFraction,
    numGoroutine := ms.numGoroutine }

/-- `monitoring.MemoryMonitor.GetMemoryStats`, sequential semantics: builds the
stats from the sample, updates the running maximum
(`if ms.Alloc > m.maxAlloc { m.maxAlloc = ms.Alloc }`), and — when
`alertThreshold > 0 && float64(ms.Alloc) > alertThreshold*float64(ms.Sys)` and
a handler is registered — invokes the handler once with the stats.  Returns
`(returned stats, updated monitor, handler invocations of this call)`. -/
def GetMemoryStats (m : MemoryMonitor) (ms : RuntimeSample) :
    MemoryStats × MemoryMonitor × List MemoryStats :=
  let stats := mkStats ms
  let maxAlloc' := if m.maxAlloc < ms.alloc then ms.alloc else m.maxAlloc
  let alerts :=
    if 0 < m.alertThreshold ∧ m.alertThreshold * (ms.sys : ℚ) < (ms.alloc : ℚ) then
      (if m.alertHandler then [stats] else [])
    else []
  (stats, { m with maxAlloc := maxAlloc' }, alerts)

/-- `monitoring.MemoryMonitor.GetMaxAlloc`: read of the running maximum. -/
def GetMaxAlloc (m : MemoryMonitor) : Nat :=
  m.maxAlloc

/-- A sequence of sequential `GetMemoryStats` calls against one monitor,
fed by the list of runtime samples the oracle produces, one per call.
Returns the final monitor and the list of returned stats, in call order. -/
def runSnapshots (m : MemoryMonitor) : List RuntimeSample → MemoryMonitor × List MemoryStats
  | [] => (m, [])
  | s :: rest =>
    let r := GetMemoryStats m s
    let rec' := runSnapshots r.2.1 rest
    (rec'.1, r.1 :: rec'.2)

/-- Maximum `alloc` over a list of samples (`0` for the empty list). -/
def observedMax (ss : List RuntimeSample) : Nat :=
  ss.foldr (fun s acc => max s.alloc acc) 0

theorem GetMemoryStats_maxAlloc (m : MemoryMonitor) (ms : RuntimeSample) :
    (GetMemoryStats m ms).2.1.maxAlloc = max m.maxAlloc ms.alloc := by
  simp only [GetMemoryStats]
  split <;> omega

theorem GetMemoryStats_threshold (m : MemoryMonitor) (ms : RuntimeSample) :
    (GetMemoryStats m ms).2.1.alertThreshold = m.alertThreshold := by
  simp [GetMemoryStats]

theorem GetMemoryStats_handler (m : MemoryMonitor) (ms : RuntimeSample) :
    (GetMemoryStats m ms).2.1.alertHandler = m.alertHandler := by
  simp [GetMemoryStats]

theorem GetMemoryStats_stats (m : MemoryMonitor) (ms : RuntimeSample) :
    (GetMemoryStats m ms).1 = mkStats ms := by
  simp [GetMemoryStats]

theorem runSnapshots_maxAlloc (m : MemoryMonitor) (ss : List RuntimeSample) :
    (runSnapshots m ss).1.maxAlloc = max m.maxAlloc (observedMax ss) := by
  induction ss generalizing m with
  | nil => simp [runSnapshots, observedMax]
  | cons s rest ih =>
    simp only [runSnapshots, observedMax, List.foldr] at *
    rw [ih, GetMemoryStats_maxAlloc]
    omega

theorem runSnapshots_allocs (m : MemoryMonitor) (ss : List RuntimeSample) :
    (runSnapshots m ss).2.map MemoryStats.alloc = ss.map RuntimeSample.alloc := by
  induction ss generalizing m with
  | nil => simp [runSnapshots]
  | cons s rest ih =>
    simp [runSnapshots, ih, GetMemoryStats_stats, mkStats]

theorem observedMax_cons (s : RuntimeSample) (ss : List RuntimeSample) :
    observedMax (s :: ss) = max s.alloc (observedMax ss) := rfl

theorem observedMax_append (a b : List RuntimeSample) :
    observedMax (a ++ b) = max (observedMax a) (observedMax b) := by
  induction a with
  | nil => simp [observedMax]
  | cons s rest ih =>
    rw [List.cons_append, observedMax_cons, observedMax_cons, ih]
    omega

theorem alloc_le_observedMax (ss : List RuntimeSample) (s : RuntimeSample)
    (h : s ∈ ss) : s.alloc ≤ observedMax ss := by
  induction ss with
  | nil => cases h
  | cons x rest ih =>
    rw [observedMax_cons]
    rcases List.mem_cons.mp h with h' | h'
    · subst h'; omega
    · have := ih h'; omega

/-- C1: on one Monitor built by `NewMemoryMonitor`, after any sequence of
sequential `GetMemoryStats` calls, `GetMaxAlloc` equals the maximum `Alloc`
observed across the calls, and at any point of the sequence the peak is ≥
every `Alloc` value returned by any prior call on the same instance. -/
theorem C1_peak_equals_observed_max (t : ℚ) (ss : List RuntimeSample) :
    GetMaxAlloc (runSnapshots (NewMemoryMonitor t) ss).1 = observedMax ss ∧
    (∀ pre post : List RuntimeSample, ss = pre ++ post →
      ∀ st ∈ (runSnapshots (NewMemoryMonitor t) pre).2,
        st.alloc ≤ GetMaxAlloc (runSnapshots (NewMemoryMonitor t) ss).1) := by
  constructor
  · simp [GetMaxAlloc, runSnapshots_maxAlloc, NewMemoryMonitor]
  · intro pre post hsplit st hst
    have hmem : st.alloc ∈ pre.map RuntimeSample.alloc := by
      rw [← runSnapshots_allocs (NewMemoryMonitor t) pre]
      exact List.mem_map_of_mem MemoryStats.alloc hst
    rcases List.mem_map.mp hmem with ⟨s, hs, halloc⟩
    have h1 : s.alloc ≤ observedMax pre := alloc_le_observedMax pre s hs
    have h2 : observedMax pre ≤ observedMax ss := by
      rw [hsplit, observedMax_append]; omega
    have h3 : GetMaxAlloc (runSnapshots (NewMemoryMonitor t) ss).1 = observedMax ss := by
      simp [GetMaxAlloc, runSnapshots_maxAlloc, NewMemoryMonitor]
    omega

/-- Concrete sample used by witnesses. -/
def sampleA : RuntimeSample :=
  { alloc := 500, totalAlloc := 800, sys := 1000, numGC := 3,
    gcCPUFraction := 0, numGoroutine := 7 }

/-- Concrete sample used by witnesses. -/
def sampleB : RuntimeSample :=
  { alloc := 200, totalAlloc := 900, sys := 1000, numGC := 4,
    gcCPUFraction := 0, numGoroutine := 7 }

/-- Witness for C1 at a concrete two-call sequence. -/
theorem C1_peak_equals_observed_max_witness :
    GetMaxAlloc (runSnapshots (NewMemoryMonitor 0) ([sampleA] ++ [sampleB])).1 = 500 ∧
    mkStats sampleA ∈ (runSnapshots (NewMemoryMonitor 0) [sampleA]).2 ∧
    (mkStats sampleA).alloc ≤
      GetMaxAlloc (runSnapshots (NewMemoryMonitor 0) ([sampleA] ++ [sampleB])).1 := by
  refine ⟨?_, ?_, ?_⟩
  · have := (C1_peak_equals_observed_max 0 ([sampleA] ++ [sampleB])).1
    rw [this]; rfl
  · simp [runSnapshots, GetMemoryStats, sampleA]
  · exact (C1_peak_equals_observed_max 0 ([sampleA] ++ [sampleB])).2
      [sampleA] [sampleB] rfl (mkStats sampleA)
      (by simp [runSnapshots, GetMemoryStats, sampleA])

/-- The threshold-crossing condition of `GetMemoryStats`:
`m.alertThreshold > 0 && float64(ms.Alloc) > m.alertThreshold*float64(ms.Sys)`. -/
def crossesThreshold (m : MemoryMonitor) (ms : RuntimeSample) : Prop :=
  0 < m.alertThreshold ∧ m.alertThreshold * (ms.sys : ℚ) < (ms.alloc : ℚ)

instance (m : MemoryMonitor) (ms : RuntimeSample) :
    Decidable (crossesThreshold m ms) := by
  unfold crossesThreshold; infer_instance

theorem GetMemoryStats_alerts (m : MemoryMonitor) (ms : RuntimeSample) :
    (GetMemoryStats m ms).2.2 =
      if crossesThreshold m ms then (if m.alertHandler then [mkStats ms] else [])
      else [] := rfl

/-- C2: with a registered sink, one `GetMemoryStats` call invokes the sink
exactly once when `alertThreshold > 0` and `Alloc > alertThreshold * Sys`, and
does not invoke it otherwise; with `alertThreshold = 0` the sink is never
invoked, whatever the sample. -/
theorem C2_alert_exactly_on_crossing (m : MemoryMonitor) (ms : RuntimeSample) :
    (m.alertHandler = true →
      (GetMemoryStats m ms).2.2.length =
        (if 0 < m.alertThreshold ∧ m.alertThreshold * (ms.sys : ℚ) < (ms.alloc : ℚ)
         then 1 else 0)) ∧
    (m.alertThreshold = 0 → (GetMemoryStats m ms).2.2 = []) := by
  constructor
  · intro hreg
    rw [GetMemoryStats_alerts, hreg]
    unfold crossesThreshold
    split <;> simp
  · intro h0
    rw [GetMemoryStats_alerts]
    have : ¬ crossesThreshold m ms := by
      unfold crossesThreshold
      rw [h0]; simp
    simp [this]

/-- Monitor used by the C2 witness: threshold 1/2 and a registered handler. -/
def monC2 : MemoryMonitor :=
  { maxAlloc := 0, alertThreshold := 1 / 2, alertHandler := true }

/-- Witness for C2: with threshold 1/2, a sample with `Alloc = 501`,
`Sys = 1000` crosses (1 invocation) and `sampleA` (`Alloc = 500`) does not;
with threshold 0 the crossing sample still yields no invocation. -/
theorem C2_alert_exactly_on_crossing_witness :
    (GetMemoryStats monC2
        { alloc := 501, totalAlloc := 0, sys := 1000, numGC := 0,
          gcCPUFraction := 0, numGoroutine := 1 }).2.2.length = 1 ∧
    (GetMemoryStats monC2 sampleA).2.2.length = 0 ∧
    (GetMemoryStats { monC2 with alertThreshold := 0 }
        { alloc := 501, totalAlloc := 0, sys := 1000, numGC := 0,
          gcCPUFraction := 0, numGoroutine := 1 }).2.2 = [] := by
  refine ⟨?_, ?_, ?_⟩
  · rw [(C2_alert_exactly_on_crossing monC2 _).1 rfl]
    norm_num [monC2]
  · rw [(C2_alert_exactly_on_crossing monC2 sampleA).1 rfl]
    norm_num [monC2, sampleA]
  · exact (C2_alert_exactly_on_crossing _ _).2 rfl

/-- C9: when no alert handler was ever registered (`alertHandler` nil, as
`NewMemoryMonitor` leaves it), a `GetMemoryStats` call performs no handler
invocation even when the threshold is positive and crossed; the call still
updates the running maximum and still returns the snapshot. -/
theorem C9_nil_handler_safe (m : MemoryMonitor) (ms : RuntimeSample)
    (hnil : m.alertHandler = false)
    (_ht : 0 < m.alertThreshold)
    (_hcross : m.alertThreshold * (ms.sys : ℚ) < (ms.alloc : ℚ)) :
    (GetMemoryStats m ms).2.2 = [] ∧
    (GetMemoryStats m ms).2.1.maxAlloc = max m.maxAlloc ms.alloc ∧
    (GetMemoryStats m ms).1 = mkStats ms ∧
    (∀ t : ℚ, (NewMemoryMonitor t).alertHandler = false) := by
  refine ⟨?_, GetMemoryStats_maxAlloc m ms, GetMemoryStats_stats m ms, fun t => rfl⟩
  rw [GetMemoryStats_alerts, hnil]
  split <;> simp

/-- Witness for C9: `NewMemoryMonitor (1/2)` (no handler set) on the crossing
sample `Alloc = 501`, `Sys = 1000`. -/
theorem C9_nil_handler_safe_witness :
    (GetMemoryStats (NewMemoryMonitor (1 / 2))
        { alloc := 501, totalAlloc := 0, sys := 1000, numGC := 0,
          gcCPUFraction := 0, numGoroutine := 1 }).2.2 = [] ∧
    (GetMemoryStats (NewMemoryMonitor (1 / 2))
        { alloc := 501, totalAlloc := 0, sys := 1000, numGC := 0,
          gcCPUFraction := 0, numGoroutine := 1 }).2.1.maxAlloc = max 0 501 := by
  have h := C9_nil_handler_safe (NewMemoryMonitor (1 / 2))
    { alloc := 501, totalAlloc := 0, sys := 1000, numGC := 0,
      gcCPUFraction := 0, numGoroutine := 1 }
    rfl (by norm_num [NewMemoryMonitor]) (by norm_num [NewMemoryMonitor])
  exact ⟨h.1, h.2.1⟩

/-!
## Log store (`internal/entity/memory_log.go`, `internal/repository/memory_log.go`)

The Mongo collection `memory_logs` is modelled as a list of `MemoryLog`
records.  `time.Time` instants are modelled as integers; the Go zero
`time.Time` (for which `IsZero()` holds) is modelled as `0`.  The Mongo
operators used by the repository act pointwise on timestamps:
`$lt c` keeps `t < c`, `$gte s` keeps `s ≤ t`, `$lte e` keeps `t ≤ e`;
`DeleteMany` removes every matching document and reports `DeletedCount`.
-/

/-- `entity.MemoryLog` — the persisted record. -/
structure MemoryLog where
  ID : String
  Timestamp : Int
  Alloc : Nat
  TotalAlloc : Nat
  Sys : Nat
  NumGC : Nat
  GCCPUFraction : ℚ
  NumGoroutine : Int
  deriving Repr, DecidableEq

/-- The in-place mutation `MemoryLogRepository.Create` performs on its argument
before `InsertOne`: a fresh ObjectID hex string is assigned only when `ID` is
empty, and `time.Now()` is assigned only when the timestamp `IsZero()`. -/
def assignCreateDefaults (e : MemoryLog) (freshID : String) (now : Int) : MemoryLog :=
  let e1 := if e.ID = "" then { e with ID := freshID } else e
  if e1.Timestamp = 0 then { e1 with Timestamp := now } else e1

/-- `MemoryLogRepository.Create` on a store whose insert succeeds: the entry,
with defaults assigned, is appended to the collection. -/
def RepoCreate (store : List MemoryLog) (e : MemoryLog) (freshID : String)
    (now : Int) : List MemoryLog :=
  store ++ [assignCreateDefaults e freshID now]

/-- `MemoryLogRepository.FindByTimeRange`: filter `timestamp ∈ [start, end]`
(`$gte start`, `$lte end` — both bounds inclusive). -/
def FindByTimeRange (store : List MemoryLog) (startT endT : Int) : List MemoryLog :=
  store.filter (fun e => startT ≤ e.Timestamp ∧ e.Timestamp ≤ endT)

/-- `MemoryLogRepository.FindAll`: the whole collection. -/
def FindAll (store : List MemoryLog) : List MemoryLog :=
  store

/-- `MemoryLogRepository.DeleteOlderThan`: `DeleteMany` with filter
`timestamp $lt olderThan`; returns `(DeletedCount, remaining collection)`. -/
def DeleteOlderThan (store : List MemoryLog) (olderThan : Int) :
    Nat × List MemoryLog :=
  ((store.filter (fun e => e.Timestamp < olderThan)).length,
   store.filter (fun e => ¬ e.Timestamp < olderThan))

/-- C4 as stated is false at the cutoff boundary: `DeleteOlderThan` removes
strictly-older entries only, while `FindByTimeRange`'s upper bound is
inclusive, so with one entry timestamped exactly at the cutoff the purge
removes nothing and the subsequent range query still returns that entry. -/
def logAtCutoff : MemoryLog :=
  { ID := "a", Timestamp := 5, Alloc := 1, TotalAlloc := 2, Sys := 3,
    NumGC := 0, GCCPUFraction := 0, NumGoroutine := 1 }

/-- Counterexample to C4: purge with cutoff 5 on a store holding one entry
timestamped 5 removes nothing, and the follow-up range query up to the cutoff
returns that entry, not the empty sequence. -/
theorem C4_purge_then_query_counterexample :
    DeleteOlderThan [logAtCutoff] 5 = (0, [logAtCutoff]) ∧
    FindByTimeRange (DeleteOlderThan [logAtCutoff] 5).2 (-100) 5 = [logAtCutoff] ∧
    FindByTimeRange (DeleteOlderThan [logAtCutoff] 5).2 (-100) 5 ≠ [] := by
  refine ⟨?_, ?_, ?_⟩ <;> decide

theorem countP_eq_filter_length {α : Type} (p : α → Bool) (l : List α) :
    l.countP p = (l.filter p).length := by
  induction l with
  | nil => simp
  | cons x xs ih =>
    by_cases h : p x <;> simp [List.countP_cons, List.filter_cons, h, ih]

theorem filter_length_partition {α : Type} (p : α → Bool) (l : List α) :
    (l.filter p).length + (l.filter (fun a => ! p a)).length = l.length := by
  induction l with
  | nil => simp
  | cons x xs ih =>
    by_cases h : p x <;> simp [List.filter_cons, h] <;> omega

/-- C4 amended: `DeleteOlderThan cutoff` removes exactly the entries with
timestamp < cutoff and returns their count; a second call with the same
cutoff removes nothing and returns 0; and after the purge every entry a
range query with inclusive upper bound `cutoff` can return is timestamped
exactly at the cutoff (so the query is empty unless entries sit exactly on
the boundary). -/
theorem C4_purge_semantics (store : List MemoryLog) (cutoff : Int) :
    (DeleteOlderThan store cutoff).1 =
      store.countP (fun e => decide (e.Timestamp < cutoff)) ∧
    (DeleteOlderThan store cutoff).1 + (DeleteOlderThan store cutoff).2.length =
      store.length ∧
    (∀ e ∈ (DeleteOlderThan store cutoff).2, cutoff ≤ e.Timestamp) ∧
    (∀ e ∈ store, cutoff ≤ e.Timestamp → e ∈ (DeleteOlderThan store cutoff).2) ∧
    DeleteOlderThan (DeleteOlderThan store cutoff).2 cutoff =
      (0, (DeleteOlderThan store cutoff).2) ∧
    (∀ startT : Int, ∀ e ∈ FindByTimeRange (DeleteOlderThan store cutoff).2 startT cutoff,
      e.Timestamp = cutoff) := by
  refine ⟨?_, ?_, ?_, ?_, ?_, ?_⟩
  · exact (countP_eq_filter_length (fun e => decide (e.Timestamp < cutoff)) store).symm
  · simp only [DeleteOlderThan, decide_not]
    exact filter_length_partition (fun e => decide (e.Timestamp < cutoff)) store
  · intro e he
    have := List.of_mem_filter he
    simp at this
    omega
  · intro e he hle
    refine List.mem_filter.mpr ⟨he, ?_⟩
    simp
    omega
  · simp only [DeleteOlderThan, List.filter_filter, Prod.mk.injEq]
    have hfalse : ∀ e : MemoryLog,
        (decide (e.Timestamp < cutoff) && decide (¬ e.Timestamp < cutoff)) = false := by
      intro e
      by_cases h : e.Timestamp < cutoff <;> simp [h]
    have htrue : ∀ e : MemoryLog,
        (decide (¬ e.Timestamp < cutoff) && decide (¬ e.Timestamp < cutoff)) =
          decide (¬ e.Timestamp < cutoff) := by
      intro e
      exact Bool.and_self _
    constructor
    · simp [hfalse]
    · simp only [htrue]
  · intro startT e he
    have h1 := List.of_mem_filter he
    have h2 : e ∈ (DeleteOlderThan store cutoff).2 := List.mem_of_mem_filter he
    have h3 := List.of_mem_filter h2
    simp at h1 h3
    omega

/-- Witness for C4's amended claim at a concrete store: two entries, one
strictly below and one exactly at the cutoff. -/
theorem C4_purge_semantics_witness :
    (DeleteOlderThan [{ logAtCutoff with Timestamp := 2 }, logAtCutoff] 5).1 = 1 ∧
    (∀ e ∈ (DeleteOlderThan [{ logAtCutoff with Timestamp := 2 }, logAtCutoff] 5).2,
      (5 : Int) ≤ e.Timestamp) ∧
    logAtCutoff ∈
      FindByTimeRange
        (DeleteOlderThan [{ logAtCutoff with Timestamp := 2 }, logAtCutoff] 5).2
        (-100) 5 ∧
    logAtCutoff.Timestamp = 5 := by
  refine ⟨by decide, (C4_purge_semantics _ 5).2.2.1, by decide, ?_⟩
  exact (C4_purge_semantics [{ logAtCutoff with Timestamp := 2 }, logAtCutoff] 5).2.2.2.2.2
    (-100) logAtCutoff (by decide)

/-- C8: `Create` assigns an identifier only to an empty `ID` and a timestamp
only to a zero `Timestamp`; pre-assigned values are preserved, every other
field is untouched, and the (possibly completed) entry is appended verbatim. -/
theorem C8_create_assigns_only_missing (e : MemoryLog) (freshID : String)
    (now : Int) (store : List MemoryLog) :
    (e.ID ≠ "" → (assignCreateDefaults e freshID now).ID = e.ID) ∧
    (e.ID = "" → (assignCreateDefaults e freshID now).ID = freshID) ∧
    (e.Timestamp ≠ 0 → (assignCreateDefaults e freshID now).Timestamp = e.Timestamp) ∧
    (e.Timestamp = 0 → (assignCreateDefaults e freshID now).Timestamp = now) ∧
    (assignCreateDefaults e freshID now).Alloc = e.Alloc ∧
    (assignCreateDefaults e freshID now).TotalAlloc = e.TotalAlloc ∧
    (assignCreateDefaults e freshID now).Sys = e.Sys ∧
    (assignCreateDefaults e freshID now).NumGC = e.NumGC ∧
    (assignCreateDefaults e freshID now).GCCPUFraction = e.GCCPUFraction ∧
    (assignCreateDefaults e freshID now).NumGoroutine = e.NumGoroutine ∧
    RepoCreate store e freshID now = store ++ [assignCreateDefaults e freshID now] := by
  have hchar : assignCreateDefaults e freshID now =
      { e with ID := if e.ID = "" then freshID else e.ID,
               Timestamp := if e.Timestamp = 0 then now else e.Timestamp } := by
    unfold assignCreateDefaults
    by_cases hid : e.ID = "" <;> by_cases hts : e.Timestamp = 0 <;>
      simp [hid, hts]
  refine ⟨?_, ?_, ?_, ?_, ?_, ?_, ?_, ?_, ?_, ?_, rfl⟩ <;> rw [hchar]
  all_goals first
    | rfl
    | (intro h; simp [h])

/-- Witness for C8: an entry with pre-assigned `ID` and zero timestamp keeps
its `ID`, gets the timestamp, and keeps its other fields. -/
theorem C8_create_assigns_only_missing_witness :
    (assignCreateDefaults { logAtCutoff with Timestamp := 0 } "fresh" 77).ID = "a" ∧
    (assignCreateDefaults { logAtCutoff with Timestamp := 0 } "fresh" 77).Timestamp = 77 ∧
    (assignCreateDefaults { logAtCutoff with Timestamp := 0 } "fresh" 77).Alloc = 1 := by
  have h := C8_create_assigns_only_missing
    { logAtCutoff with Timestamp := 0 } "fresh" 77 []
  exact ⟨h.1 (by decide), h.2.2.2.1 rfl, h.2.2.2.2.1⟩

/-!
## Persistence loop (`cmd/api/main.go`, `startMemoryLogging`)

The goroutine's `select` loop is modelled as a function over the finite list
of events it observes: each event is either the context's `Done` signal or a
ticker tick.  A tick carries the oracle data of that iteration: the runtime
sample `GetMemoryStats` reads, the fresh ObjectID and `time.Now()` value the
repository would assign, and whether the Mongo insert fails.  The loop's
outputs are the final monitor, the final collection, and one `Bool` per
processed tick recording whether the `ERROR: Failed to store memory log`
line was printed.
-/

/-- Oracle data of one tick of the memory-logging loop. -/
structure LoopTick where
  sample : RuntimeSample
  freshID : String
  now : Int
  insertFails : Bool
  deriving Repr, DecidableEq

/-- One event observed by the loop's `select`. -/
inductive LoopEvent where
  | done
  | tick (t : LoopTick)
  deriving Repr, DecidableEq

/-- The `MemoryLog` entry `startMemoryLogging` builds from the stats of a
tick: all snapshot fields copied, `ID` and `Timestamp` left at their zero
values (so `Create` assigns both). -/
def mkLoopEntry (stats : MemoryStats) : MemoryLog :=
  { ID := "", Timestamp := 0, Alloc := stats.alloc, TotalAlloc := stats.totalAlloc,
    Sys := stats.sys, NumGC := stats.numGC, GCCPUFraction := stats.gcCPUFraction,
    NumGoroutine := stats.numGoroutine }

/-- Body of one tick: `GetMemoryStats`, build the entry, attempt
`memoryLogRepo.Create`.  On insert failure the collection is unchanged and
the error is logged (`true`); on success the entry is appended (`false`). -/
def memoryLoggingTick (m : MemoryMonitor) (store : List MemoryLog)
    (t : LoopTick) : MemoryMonitor × List MemoryLog × Bool :=
  let r := GetMemoryStats m t.sample
  if t.insertFails then (r.2.1, store, true)
  else (r.2.1, RepoCreate store (mkLoopEntry r.1) t.freshID t.now, false)

/-- `startMemoryLogging`'s loop over its event list: `Done` returns, a tick
runs the body and recurses.  Note the result type carries no error: the loop
has no failure outcome to propagate to any caller. -/
def startMemoryLogging (m : MemoryMonitor) (store : List MemoryLog) :
    List LoopEvent → MemoryMonitor × List MemoryLog × List Bool
  | [] => (m, store, [])
  | LoopEvent.done :: _ => (m, store, [])
  | LoopEvent.tick t :: rest =>
    let r := memoryLoggingTick m store t
    let k := startMemoryLogging r.1 r.2.1 rest
    (k.1, k.2.1, r.2.2 :: k.2.2)

/-- The monitor evolution and the per-tick error reports of the loop do not
depend on the state of the log store. -/
theorem startMemoryLogging_store_irrel (evs : List LoopEvent)
    (m : MemoryMonitor) (s s' : List MemoryLog) :
    (startMemoryLogging m s evs).1 = (startMemoryLogging m s' evs).1 ∧
    (startMemoryLogging m s evs).2.2 = (startMemoryLogging m s' evs).2.2 := by
  induction evs generalizing m s s' with
  | nil => exact ⟨rfl, rfl⟩
  | cons ev rest ih =>
    cases ev with
    | done => exact ⟨rfl, rfl⟩
    | tick t =>
      cases hf : t.insertFails <;>
        simp only [startMemoryLogging, memoryLoggingTick, hf, if_true, if_false,
          Bool.false_eq_true, ite_false, ite_true] <;>
        exact ⟨(ih _ _ _).1, by rw [(ih _ _ _).2]⟩

/-- C5: a tick whose log-store append fails reports the failure (`true` log
flag), leaves the store untouched, continues with the remaining events, and
leaves the monitor exactly as a successful append would have; the loop's
result type carries no error, so nothing propagates to any caller. -/
theorem C5_append_failure_is_best_effort (m : MemoryMonitor)
    (store : List MemoryLog) (t : LoopTick) (rest : List LoopEvent)
    (hfail : t.insertFails = true) :
    (startMemoryLogging m store (LoopEvent.tick t :: rest) =
      ((startMemoryLogging (GetMemoryStats m t.sample).2.1 store rest).1,
       (startMemoryLogging (GetMemoryStats m t.sample).2.1 store rest).2.1,
       true :: (startMemoryLogging (GetMemoryStats m t.sample).2.1 store rest).2.2)) ∧
    (startMemoryLogging m store (LoopEvent.tick t :: rest)).1 =
      (startMemoryLogging m store
        (LoopEvent.tick { t with insertFails := false } :: rest)).1 ∧
    (startMemoryLogging m store (LoopEvent.tick t :: rest)).2.2.length =
      (startMemoryLogging m store
        (LoopEvent.tick { t with insertFails := false } :: rest)).2.2.length := by
  have hstep : startMemoryLogging m store (LoopEvent.tick t :: rest) =
      ((startMemoryLogging (GetMemoryStats m t.sample).2.1 store rest).1,
       (startMemoryLogging (GetMemoryStats m t.sample).2.1 store rest).2.1,
       true :: (startMemoryLogging (GetMemoryStats m t.sample).2.1 store rest).2.2) := by
    simp [startMemoryLogging, memoryLoggingTick, hfail]
  have hok : startMemoryLogging m store
      (LoopEvent.tick { t with insertFails := false } :: rest) =
      (let s' := RepoCreate store
        (mkLoopEntry (GetMemoryStats m t.sample).1) t.freshID t.now
       ((startMemoryLogging (GetMemoryStats m t.sample).2.1 s' rest).1,
        (startMemoryLogging (GetMemoryStats m t.sample).2.1 s' rest).2.1,
        false :: (startMemoryLogging (GetMemoryStats m t.sample).2.1 s' rest).2.2)) := by
    simp [startMemoryLogging, memoryLoggingTick]
  refine ⟨hstep, ?_, ?_⟩
  · rw [hstep, hok]
    exact (startMemoryLogging_store_irrel rest _ _ _).1
  · rw [hstep, hok]
    simp only [List.length_cons]
    rw [(startMemoryLogging_store_irrel rest (GetMemoryStats m t.sample).2.1 store
      (RepoCreate store (mkLoopEntry (GetMemoryStats m t.sample).1) t.freshID t.now)).2]

/-- Witness for C5: a failing tick followed by one successful tick on a fresh
monitor and empty store — the failure is logged, the next tick still runs
(two log flags), and the final monitor equals the all-successful run's. -/
theorem C5_append_failure_is_best_effort_witness :
    (startMemoryLogging (NewMemoryMonitor 0) []
        [LoopEvent.tick { sample := sampleA, freshID := "x", now := 9, insertFails := true },
         LoopEvent.tick { sample := sampleB, freshID := "y", now := 10, insertFails := false }]).2.2 =
      [true, false] ∧
    (startMemoryLogging (NewMemoryMonitor 0) []
        [LoopEvent.tick { sample := sampleA, freshID := "x", now := 9, insertFails := true },
         LoopEvent.tick { sample := sampleB, freshID := "y", now := 10, insertFails := false }]).1 =
      (startMemoryLogging (NewMemoryMonitor 0) []
        [LoopEvent.tick { sample := sampleA, freshID := "x", now := 9, insertFails := false },
         LoopEvent.tick { sample := sampleB, freshID := "y", now := 10, insertFails := false }]).1 := by
  constructor
  · decide
  · exact (C5_append_failure_is_best_effort (NewMemoryMonitor 0) []
      { sample := sampleA, freshID := "x", now := 9, insertFails := true }
      [LoopEvent.tick { sample := sampleB, freshID := "y", now := 10, insertFails := false }]
      rfl).2.1

/-!
## `monitoring.FormatBytes`

`fmt.Sprintf("%.1f", x)` formats the value with one decimal digit, rounding
to nearest with ties to even; for every input the claims mention, and for
every `bytes < 2^53`, `float64(bytes)/float64(div)` is exact (and `div` is a
power of two), so the rendering below — exact round-half-even of the true
quotient to one decimal — coincides with Go's output.  The scaling loop
(`for n := bytes / unit; n >= unit; n /= unit`) strictly decreases `n`; it
is embedded with a fuel argument initialised to `n`, which the spec lemma
shows is never exhausted.  The index `"KMGTPE"[exp]` is modelled as a
`List.get?` lookup whose `none` case (the Go index-out-of-range panic) makes
`FormatBytes` return `none`.
-/

/-- The scaling loop of `FormatBytes` with explicit fuel:
`if n >= 1024 { div *= 1024; exp++; n /= 1024 }` until `n < 1024`;
returns the final `(div, exp)`. -/
def formatLoopAux : Nat → Nat → Nat → Nat → Nat × Nat
  | 0, _, div, exp => (div, exp)
  | fuel + 1, n, div, exp =>
    if 1024 ≤ n then formatLoopAux fuel (n / 1024) (div * 1024) (exp + 1)
    else (div, exp)

/-- The scaling loop started as in the source: enough fuel (`n` itself). -/
def formatLoop (n div exp : Nat) : Nat × Nat :=
  formatLoopAux n n div exp

/-- Round `num / den` to the nearest integer, ties to even
(the rounding `fmt`'s `%.1f` applies, here used on `10 * bytes / div`). -/
def roundHalfEven (num den : Nat) : Nat :=
  let q := num / den
  let r := num % den
  if 2 * r < den then q
  else if den < 2 * r then q + 1
  else if q % 2 = 0 then q else q + 1

/-- `fmt.Sprintf("%.1f", float64(b)/float64(div))`. -/
def fixed1 (b div : Nat) : String :=
  let t := roundHalfEven (10 * b) div
  toString (t / 10) ++ "." ++ toString (t % 10)

/-- The prefix characters of the string literal `"KMGTPE"`. -/
def unitChars : List Char := ['K', 'M', 'G', 'T', 'P', 'E']

/-- `monitoring.FormatBytes`.  `none` models the (unreachable, see C10)
index-out-of-range panic of `"KMGTPE"[exp]`. -/
def FormatBytes (bytes : Nat) : Option String :=
  if bytes < 1024 then some (toString bytes ++ " B")
  else
    let de := formatLoop (bytes / 1024) 1024 0
    match unitChars.get? de.2 with
    | some c => some (fixed1 bytes de.1 ++ " " ++ String.mk [c] ++ "B")
    | none => none

theorem formatLoopAux_spec (fuel : Nat) : ∀ n div exp : Nat, n ≤ fuel →
    ∃ k : Nat, formatLoopAux fuel n div exp = (div * 1024 ^ k, exp + k) ∧
      n / 1024 ^ k < 1024 ∧ ∀ j : Nat, j < k → 1024 ≤ n / 1024 ^ j := by
  induction fuel with
  | zero =>
    intro n div exp hn
    have hn0 : n = 0 := by omega
    subst hn0
    exact ⟨0, by simp [formatLoopAux], by simp, by omega⟩
  | succ fuel ih =>
    intro n div exp hn
    by_cases h : 1024 ≤ n
    · have hdiv : n / 1024 < n := Nat.div_lt_self (by omega) (by omega)
      obtain ⟨k, hk1, hk2, hk3⟩ := ih (n / 1024) (div * 1024) (exp + 1) (by omega)
      refine ⟨k + 1, ?_, ?_, ?_⟩
      · simp only [formatLoopAux, if_pos h]
        rw [hk1]
        refine congrArg₂ Prod.mk ?_ (by omega)
        ring
      · have hiter : n / 1024 ^ (k + 1) = (n / 1024) / 1024 ^ k := by
          rw [Nat.div_div_eq_div_mul]
          congr 1
          ring
        rw [hiter]
        exact hk2
      · intro j hj
        cases j with
        | zero => simpa using h
        | succ j' =>
          have hiter : n / 1024 ^ (j' + 1) = (n / 1024) / 1024 ^ j' := by
            rw [Nat.div_div_eq_div_mul]
            congr 1
            ring
          rw [hiter]
          exact hk3 j' (by omega)
    · refine ⟨0, ?_, by simpa using (by omega : n < 1024), by omega⟩
      simp [formatLoopAux, h]

/-- The loop computes the largest power `1024 ^ (e + 1) ≤ b` and its
exponent: `formatLoop (b / 1024) 1024 0 = (1024 ^ (e + 1), e)` with
`1024 ^ (e + 1) ≤ b < 1024 ^ (e + 2)`. -/
theorem formatLoop_spec (b : Nat) (hb : 1024 ≤ b) :
    ∃ e : Nat, formatLoop (b / 1024) 1024 0 = (1024 ^ (e + 1), e) ∧
      1024 ^ (e + 1) ≤ b ∧ b < 1024 ^ (e + 2) := by
  obtain ⟨k, h1, h2, h3⟩ := formatLoopAux_spec (b / 1024) (b / 1024) 1024 0 le_rfl
  have hdd : ∀ j : Nat, (b / 1024) / 1024 ^ j = b / 1024 ^ (j + 1) := by
    intro j
    rw [Nat.div_div_eq_div_mul]
    congr 1
    ring
  refine ⟨k, ?_, ?_, ?_⟩
  · rw [formatLoop, h1]
    refine congrArg₂ Prod.mk ?_ (by omega)
    ring
  · cases k with
    | zero => simpa using hb
    | succ k' =>
      have hk' := h3 k' (by omega)
      rw [hdd k'] at hk'
      have hpos : 0 < 1024 ^ (k' + 1) := Nat.pos_pow_of_pos _ (by omega)
      have := (Nat.le_div_iff_mul_le hpos).mp hk'
      calc 1024 ^ (k' + 1 + 1) = 1024 * 1024 ^ (k' + 1) := by ring
        _ ≤ b := this
  · rw [hdd k] at h2
    have hpos : 0 < 1024 ^ (k + 1) := Nat.pos_pow_of_pos _ (by omega)
    have := (Nat.div_lt_iff_lt_mul hpos).mp h2
    calc b < 1024 * 1024 ^ (k + 1) := this
      _ = 1024 ^ (k + 2) := by ring

/-- For every `uint64` value the loop's exponent stays within the last index
of `"KMGTPE"`. -/
theorem formatLoop_exp_le_five (b : Nat) (hb : 1024 ≤ b) (h64 : b < 2 ^ 64) :
    (formatLoop (b / 1024) 1024 0).2 ≤ 5 := by
  obtain ⟨e, h1, h2, h3⟩ := formatLoop_spec b hb
  rw [h1]
  by_contra hgt
  push_neg at hgt
  have h4 : (1024 : Nat) ^ 7 ≤ 1024 ^ (e + 1) :=
    Nat.pow_le_pow_right (by omega) (by omega)
  have h5 : (1024 : Nat) ^ 7 ≤ b := le_trans h4 h2
  have h6 : (1024 : Nat) ^ 7 = 1180591620717411303424 := by norm_num
  have h7 : (2 : Nat) ^ 64 = 18446744073709551616 := by norm_num
  omega

/-- For `b ≥ 1024` with in-range exponent, `FormatBytes` renders the scaled
value with one decimal and the prefix character at index `e`. -/
theorem FormatBytes_eq_of_large (b e : Nat) (hb : 1024 ≤ b)
    (heq : formatLoop (b / 1024) 1024 0 = (1024 ^ (e + 1), e)) (he : e ≤ 5) :
    ∃ c : Char, unitChars.get? e = some c ∧
      FormatBytes b = some (fixed1 b (1024 ^ (e + 1)) ++ " " ++ String.mk [c] ++ "B") := by
  have hnlt : ¬ b < 1024 := by omega
  interval_cases e <;>
    exact ⟨_, rfl, by simp [FormatBytes, hnlt, heq, unitChars]⟩

/-- C10: `FormatBytes` is total on `uint64`: for every `b < 2^64` the scaling
loop terminates with exponent ≤ 5, the `"KMGTPE"` lookup is in bounds, and a
string is returned (no `none`, i.e. no runtime panic). -/
theorem C10_FormatBytes_total (b : Nat) (h64 : b < 2 ^ 64) :
    (FormatBytes b).isSome = true ∧
    (1024 ≤ b → (formatLoop (b / 1024) 1024 0).2 ≤ 5) := by
  by_cases hlt : b < 1024
  · refine ⟨by simp [FormatBytes, hlt], by omega⟩
  · have hb : 1024 ≤ b := by omega
    obtain ⟨e, h1, _, _⟩ := formatLoop_spec b hb
    have he : e ≤ 5 := by
      have := formatLoop_exp_le_five b hb h64
      rw [h1] at this
      exact this
    obtain ⟨c, _, hfb⟩ := FormatBytes_eq_of_large b e hb h1 he
    refine ⟨by rw [hfb]; rfl, fun _ => by rw [h1]; exact he⟩

/-- Witness for C10 at the largest `uint64` value. -/
theorem C10_FormatBytes_total_witness :
    (FormatBytes (2 ^ 64 - 1)).isSome = true ∧
    (formatLoop ((2 ^ 64 - 1) / 1024) 1024 0).2 ≤ 5 := by
  have h := C10_FormatBytes_total (2 ^ 64 - 1) (by norm_num)
  exact ⟨h.1, h.2 (by norm_num)⟩

/-- C7: the pinned renderings of `FormatBytes`, the `" B"` integer case below
1024, the unit boundary at each of the six prefixes, and — for every `uint64`
input ≥ 1024 — the value scaled by the largest applicable power of 1024,
rendered with one decimal place and the matching prefix from `"KMGTPE"`. -/
theorem C7_FormatBytes_rendering :
    FormatBytes 0 = some "0 B" ∧
    FormatBytes 1023 = some "1023 B" ∧
    FormatBytes 1024 = some "1.0 KB" ∧
    FormatBytes 1536 = some "1.5 KB" ∧
    FormatBytes 1048576 = some "1.0 MB" ∧
    FormatBytes (1024 ^ 3) = some "1.0 GB" ∧
    FormatBytes (1024 ^ 4) = some "1.0 TB" ∧
    FormatBytes (1024 ^ 5) = some "1.0 PB" ∧
    FormatBytes (1024 ^ 6) = some "1.0 EB" ∧
    (∀ b : Nat, b < 1024 → FormatBytes b = some (toString b ++ " B")) ∧
    (∀ b : Nat, 1024 ≤ b → b < 2 ^ 64 →
      ∃ e : Nat, ∃ c : Char, e ≤ 5 ∧ 1024 ^ (e + 1) ≤ b ∧ b < 1024 ^ (e + 2) ∧
        unitChars.get? e = some c ∧
        FormatBytes b =
          some (fixed1 b (1024 ^ (e + 1)) ++ " " ++ String.mk [c] ++ "B")) := by
  refine ⟨by decide, by decide, by decide, by decide, by decide, by decide,
    by decide, by decide, by decide, ?_, ?_⟩
  · intro b hb
    simp [FormatBytes, hb]
  · intro b hb h64
    obtain ⟨e, h1, h2, h3⟩ := formatLoop_spec b hb
    have he : e ≤ 5 := by
      have := formatLoop_exp_le_five b hb h64
      rw [h1] at this
      exact this
    obtain ⟨c, hc, hfb⟩ := FormatBytes_eq_of_large b e hb h1 he
    exact ⟨e, c, he, h2, h3, hc, hfb⟩

/-- Witness for C7 on a concrete large input (123456789 bytes scales by
`1024 ^ 2` with prefix `M`). -/
theorem C7_FormatBytes_rendering_witness :
    FormatBytes 7 = some (toString 7 ++ " B") ∧
    (∃ e : Nat, ∃ c : Char, e ≤ 5 ∧ 1024 ^ (e + 1) ≤ 123456789 ∧
      (123456789 : Nat) < 1024 ^ (e + 2) ∧
      unitChars.get? e = some c ∧
      FormatBytes 123456789 =
        some (fixed1 123456789 (1024 ^ (e + 1)) ++ " " ++ String.mk [c] ++ "B")) := by
  exact ⟨C7_FormatBytes_rendering.2.2.2.2.2.2.2.2.2.1 7 (by norm_num),
    C7_FormatBytes_rendering.2.2.2.2.2.2.2.2.2.2 123456789 (by norm_num) (by norm_num)⟩

/-!
## Request instrumentation (`pkg/monitoring/middleware.go`, `MemoryMiddleware`)

A Fiber request context is modelled by its observable response parts: the
body and the response headers (a map from header name to value; `Header.Set`
replaces).  The wrapped stage `c.Next()` is a function from the context to
the context it produces plus its error outcome (`Option String` standing for
Go's `error`).  Real time is not modelled: the rendered
`time.Since(start).String()` value of the request is a parameter `durStr`.
The two `GetMemoryStats` calls receive the samples the runtime reports at
their respective instants, `sBefore` before the stage runs and `sAfter`
after, threading the monitor state in program order. -/

/-- Observable response state of a request context. -/
structure ReqCtx where
  body : String
  header : String → Option String

/-- `c.Response().Header.Set(k, v)`: replaces the value of header `k`. -/
def setHeader (c : ReqCtx) (k v : String) : ReqCtx :=
  { c with header := fun k' => if k' = k then some v else c.header k' }

/-- Go's `int64(u)` conversion of a `uint64` value `u < 2^64`. -/
def toInt64 (u : Nat) : Int :=
  if u < 2 ^ 63 then (u : Int) else (u : Int) - 2 ^ 64

/-- Go's wrapping `int64` arithmetic: reduce into `[-2^63, 2^63)`. -/
def wrapInt64 (i : Int) : Int :=
  (i + 2 ^ 63) % 2 ^ 64 - 2 ^ 63

/-- `fmt.Sprintf("%+d", i)`: always renders a sign. -/
def sprintfPlusD (i : Int) : String :=
  if 0 ≤ i then "+" ++ toString i else toString i

/-- `monitoring.MemoryMiddleware`, one request: snapshot before, run the
wrapped stage, snapshot after, compute
`memoryDiff := int64(after.Alloc) - int64(before.Alloc)`, set the five
response headers, and return the stage's error unchanged.  Result:
`(response context, propagated error, final monitor state)`. -/
def MemoryMiddleware (m : MemoryMonitor) (sBefore sAfter : RuntimeSample)
    (durStr : String) (next : ReqCtx → ReqCtx × Option String) (c : ReqCtx) :
    ReqCtx × Option String × MemoryMonitor :=
  let rB := GetMemoryStats m sBefore
  let before := rB.1
  let n := next c
  let rA := GetMemoryStats rB.2.1 sAfter
  let after := rA.1
  let memoryDiff := wrapInt64 (toInt64 after.alloc - toInt64 before.alloc)
  let c1 := setHeader n.1 "X-Memory-Before" ((FormatBytes before.alloc).getD "")
  let c2 := setHeader c1 "X-Memory-After" ((FormatBytes after.alloc).getD "")
  let c3 := setHeader c2 "X-Memory-Diff" (sprintfPlusD memoryDiff)
  let c4 := setHeader c3 "X-Request-Duration" durStr
  let c5 := setHeader c4 "X-Num-Goroutines" (toString after.numGoroutine)
  (c5, n.2, rA.2.1)

/-- With both allocation counts in `int64` range, the Go diff is the exact
signed difference. -/
theorem memoryDiff_exact (a b : Nat) (ha : a < 2 ^ 63) (hb : b < 2 ^ 63) :
    wrapInt64 (toInt64 a - toInt64 b) = (a : Int) - (b : Int) := by
  unfold wrapInt64 toInt64
  rw [if_pos ha, if_pos hb]
  have h1 : (0 : Int) ≤ (a : Int) - b + 2 ^ 63 := by omega
  have h2 : (a : Int) - b + 2 ^ 63 < 2 ^ 64 := by omega
  rw [Int.emod_eq_of_lt h1 h2]
  omega

theorem FormatBytes_isSome (b : Nat) (h64 : b < 2 ^ 64) :
    ∃ s : String, FormatBytes b = some s := by
  by_cases hlt : b < 1024
  · exact ⟨toString b ++ " B", by simp [FormatBytes, hlt]⟩
  · have hb : 1024 ≤ b := by omega
    obtain ⟨e, h1, _, _⟩ := formatLoop_spec b hb
    have he : e ≤ 5 := by
      have := formatLoop_exp_le_five b hb h64
      rw [h1] at this
      exact this
    obtain ⟨c, _, hfb⟩ := FormatBytes_eq_of_large b e hb h1 he
    exact ⟨_, hfb⟩

/-- C6: the middleware snapshots before the stage, runs the stage, snapshots
after (threading the monitor in that order), propagates the stage's outcome
unchanged, never alters the response body, renders the diff as the signed
value `after.Alloc - before.Alloc` always with a sign, and attaches exactly
the before/after/diff/duration/goroutine-count headers, leaving every other
header as the stage produced it. -/
theorem C6_memory_middleware (m : MemoryMonitor) (sBefore sAfter : RuntimeSample)
    (durStr : String) (next : ReqCtx → ReqCtx × Option String) (c : ReqCtx)
    (hB : sBefore.alloc < 2 ^ 63) (hA : sAfter.alloc < 2 ^ 63) :
    (MemoryMiddleware m sBefore sAfter durStr next c).2.1 = (next c).2 ∧
    (MemoryMiddleware m sBefore sAfter durStr next c).1.body = (next c).1.body ∧
    (MemoryMiddleware m sBefore sAfter durStr next c).2.2 =
      (GetMemoryStats (GetMemoryStats m sBefore).2.1 sAfter).2.1 ∧
    (MemoryMiddleware m sBefore sAfter durStr next c).1.header "X-Memory-Before" =
      FormatBytes sBefore.alloc ∧
    (MemoryMiddleware m sBefore sAfter durStr next c).1.header "X-Memory-After" =
      FormatBytes sAfter.alloc ∧
    (MemoryMiddleware m sBefore sAfter durStr next c).1.header "X-Memory-Diff" =
      some (sprintfPlusD ((sAfter.alloc : Int) - (sBefore.alloc : Int))) ∧
    (MemoryMiddleware m sBefore sAfter durStr next c).1.header "X-Request-Duration" =
      some durStr ∧
    (MemoryMiddleware m sBefore sAfter durStr next c).1.header "X-Num-Goroutines" =
      some (toString sAfter.numGoroutine) ∧
    (∀ k : String,
      k ≠ "X-Memory-Before" → k ≠ "X-Memory-After" → k ≠ "X-Memory-Diff" →
      k ≠ "X-Request-Duration" → k ≠ "X-Num-Goroutines" →
      (MemoryMiddleware m sBefore sAfter durStr next c).1.header k =
        (next c).1.header k) ∧
    (∀ d : Int, 0 ≤ d → sprintfPlusD d = "+" ++ toString d) := by
  have hdiff := memoryDiff_exact sAfter.alloc sBefore.alloc hA hB
  obtain ⟨sb, hsb⟩ := FormatBytes_isSome sBefore.alloc (by omega)
  obtain ⟨sa, hsa⟩ := FormatBytes_isSome sAfter.alloc (by omega)
  refine ⟨rfl, rfl, rfl, ?_, ?_, ?_, ?_, ?_, ?_, ?_⟩
  · simp [MemoryMiddleware, setHeader, GetMemoryStats_stats, mkStats, hsb]
  · simp [MemoryMiddleware, setHeader, GetMemoryStats_stats, mkStats, hsa]
  · simp [MemoryMiddleware, setHeader, GetMemoryStats_stats, mkStats, hdiff]
  · simp [MemoryMiddleware, setHeader]
  · simp [MemoryMiddleware, setHeader, GetMemoryStats_stats, mkStats]
  · intro k h1 h2 h3 h4 h5
    simp only [MemoryMiddleware, setHeader]
    rw [if_neg h5, if_neg h4, if_neg h3, if_neg h2, if_neg h1]
  · intro d hd
    simp [sprintfPlusD, hd]

/-- Witness for C6: a no-op stage on a concrete context, with `sampleB` before
and `sampleA` after (diff `+300`). -/
theorem C6_memory_middleware_witness :
    (MemoryMiddleware (NewMemoryMonitor 0) sampleB sampleA "1ms"
        (fun c => (c, none)) { body := "hello", header := fun _ => none }).2.1 = none ∧
    (MemoryMiddleware (NewMemoryMonitor 0) sampleB sampleA "1ms"
        (fun c => (c, none)) { body := "hello", header := fun _ => none }).1.body =
      "hello" ∧
    (MemoryMiddleware (NewMemoryMonitor 0) sampleB sampleA "1ms"
        (fun c => (c, none)) { body := "hello", header := fun _ => none }).1.header
        "X-Memory-Diff" = some "+300" := by
  have h := C6_memory_middleware (NewMemoryMonitor 0) sampleB sampleA "1ms"
    (fun c => (c, none)) { body := "hello", header := fun _ => none }
    (by norm_num [sampleB]) (by norm_num [sampleA])
  refine ⟨h.1, h.2.1, ?_⟩
  rw [h.2.2.2.2.2.1]
  norm_num [sampleA, sampleB]
  decide

/-!
## Concurrent `GetMemoryStats` callers (claim C3)

`GetMemoryStats` guards its update of `m.maxAlloc` with `m.mu.RLock()` — the
*read* half of the `sync.RWMutex`.  Read locks do not exclude one another,
so any number of `GetMemoryStats` calls execute their critical sections
concurrently, and the check `ms.Alloc > m.maxAlloc` and the store
`m.maxAlloc = ms.Alloc` of different calls interleave freely (the code as
written is a data race on `maxAlloc`; the model below gives it the most
charitable semantics, sequentially consistent interleaving of the two
memory accesses).

Each caller is modelled with its sampled `Alloc` value and a program
counter: pc 0 = evaluate `ms.Alloc > m.maxAlloc` against the current shared
`maxAlloc`; pc 1 = if the recorded comparison held, store `ms.Alloc`;
pc 2 = done.  A schedule is the list of caller indices in global execution
order, each index performing its caller's next action. -/

/-- One concurrent `GetMemoryStats` caller inside its `RLock` section. -/
structure RaceCaller where
  val : Nat
  pc : Nat
  condHeld : Bool
  deriving Repr, DecidableEq

/-- Shared state: the monitor's `maxAlloc` plus all callers. -/
structure RaceState where
  maxAlloc : Nat
  callers : List RaceCaller
  deriving Repr, DecidableEq

/-- One atomic action of a caller against the shared `maxAlloc`. -/
def raceStep (maxA : Nat) (c : RaceCaller) : Nat × RaceCaller :=
  if c.pc = 0 then (maxA, { c with pc := 1, condHeld := decide (maxA < c.val) })
  else if c.pc = 1 then ((if c.condHeld then c.val else maxA), { c with pc := 2 })
  else (maxA, c)

/-- Run a schedule: each entry names the caller that performs its next
action. -/
def runSched (st : RaceState) : List Nat → RaceState
  | [] => st
  | i :: rest =>
    match st.callers.get? i with
    | none => runSched st rest
    | some c =>
      let r := raceStep st.maxAlloc c
      runSched { maxAlloc := r.1, callers := st.callers.set i r.2 } rest

/-- A serialized caller (both actions back to back, as an exclusive lock
would force) performs exactly the `maxAlloc` update of the sequential
`GetMemoryStats` semantics. -/
theorem raceStep_serialized (maxA v : Nat) :
    (raceStep (raceStep maxA { val := v, pc := 0, condHeld := false }).1
      (raceStep maxA { val := v, pc := 0, condHeld := false }).2).1 =
      (GetMemoryStats { maxAlloc := maxA, alertThreshold := 0, alertHandler := false }
        { alloc := v, totalAlloc := 0, sys := 0, numGC := 0, gcCPUFraction := 0,
          numGoroutine := 0 }).2.1.maxAlloc := by
  by_cases h : maxA < v <;> simp [raceStep, GetMemoryStats, h]

/-- 100 callers, caller `i` samples `Alloc = i + 1` (strictly increasing in
sampling order). -/
def raceInit : RaceState :=
  { maxAlloc := 0,
    callers := (List.range 100).map (fun i => { val := i + 1, pc := 0, condHeld := false }) }

/-- An interleaving the shared read lock permits: every caller first
evaluates `ms.Alloc > m.maxAlloc` (all see `maxAlloc = 0`), then the stores
retire in descending sampled order, the smallest last. -/
def raceSched : List Nat :=
  List.range 100 ++ (List.range 100).reverse

/-- The monitor as left behind by the raced execution: its `maxAlloc` is the
shared cell's final value. -/
def raceFinalMonitor : MemoryMonitor :=
  { maxAlloc := (runSched raceInit raceSched).maxAlloc, alertThreshold := 0,
    alertHandler := false }

set_option maxRecDepth 10000

/-- C3 fails on the code: under the interleaving `raceSched` — which
`mu.RLock()` does not exclude — all 100 callers complete their
`GetMemoryStats` body, the maximum `Alloc` produced is 100, yet the final
`maxAlloc` read by `GetMaxAlloc` is 1: the updates of 99 callers are lost.
The claimed property requires the final peak to equal 100. -/
theorem C3_lost_update_execution :
    (runSched raceInit raceSched).maxAlloc = 1 ∧
    GetMaxAlloc raceFinalMonitor = 1 ∧
    (runSched raceInit raceSched).callers.length = 100 ∧
    ((runSched raceInit raceSched).callers.all (fun c => c.pc = 2)) = true ∧
    ((runSched raceInit raceSched).callers.map RaceCaller.val).foldr max 0 = 100 := by
  refine ⟨by decide, by decide, by decide, by decide, by decide⟩

end GoCleanArch
